import Mathlib

/-!
Verification of `src/shim/src/package_manager.rs` (workspace resolution for
turborepo's Rust shim).

Shallow embedding conventions:

* A filesystem path (Rust `PathBuf`) is represented by its list of
  components, `List String`.  A Unix path string corresponds to its
  `String.splitOn "/"` decomposition, so an absolute path such as
  `/repo/apps` is `["", "repo", "apps"]` — the leading empty component
  encodes the leading `/`.  `segsOf` performs exactly this split, so that
  string literals from the source can be quoted verbatim.
* `PathBuf::push` / `Path::join` semantics: pushing an absolute path
  (one whose first component is empty, i.e. the string starts with `/`)
  replaces the receiver entirely; otherwise the components are appended.
  This mirrors the documented Rust behaviour of `PathBuf::push`.
* Globs are compiled with the semantics of the third-party `globset`
  crate with its default options (`literal_separator` disabled), which
  the source uses via `Glob::new` / `GlobSetBuilder`.  For the pattern
  subset this program constructs (literal components, `*`, `**`) the
  regex `globset` produces is equivalent to the component-level matcher
  `gmatch` below:
    - a literal component matches exactly that one component;
    - `*` as a component compiles to `.*` (default options), flanked by
      literal `/`, hence it consumes one or more components;
    - a leading `**/` compiles to `(?:/?|.*/)` — zero or more components;
    - an interior `/**/` compiles to `(?:/|/.*/)` — zero or more
      components;
    - a trailing `/**` compiles to `/.*` — one or more components.
  Components containing glob metacharacters other than the exact
  components `*` and `**` are outside the modelled subset and are
  rejected by `compileGlob`; the program's fixed patterns never contain
  them.
* `fs::read_to_string` is modelled as a partial map from (absolute)
  paths to file contents; `None` is an I/O error.  The serde parsers
  (third-party) are modelled as abstract functions from file contents to
  the optional parsed glob list; `None` is a deserialization error.
  Rust `String → PathBuf` conversion of each parsed entry is folded into
  the parser, so parsed workspace globs are already component lists.
* Lean `String`s are always valid unicode, so the source's
  `to_str().ok_or_else(...)` checks never fail in the model; they are
  modelled as total conversions.
-/

/-- The five package-manager variants of `enum PackageManager`. -/
inductive PackageManager where
| berry
| npm
| pnpm
| pnpm6
| yarn
deriving DecidableEq, Repr

/-- A filesystem path as its `/`-separated components (Rust `PathBuf`). -/
abbrev PathBuf := List String

/-- Split a character list on `/` (the computation behind
`String.splitOn "/"`, written structurally so the kernel can evaluate
it). -/
def splitSlash : List Char → List (List Char)
| [] => [[]]
| c :: cs =>
  if c = '/' then [] :: splitSlash cs
  else
    match splitSlash cs with
    | [] => [[c]]
    | t :: ts => (c :: t) :: ts

/-- Components of a Unix path string (its `/`-separated pieces, as in
`String.splitOn "/"`).  The leading empty component of an absolute path
encodes its leading slash. -/
def segsOf (s : String) : PathBuf :=
  (splitSlash s.toList).map fun cs => String.mk cs

/-- Whether a path is absolute: its string form starts with `/`, i.e. its
first component is empty (Rust `Path::is_absolute` on Unix). -/
def pathIsAbsolute (p : PathBuf) : Bool :=
  p.head? = some ""

/-- Rust `PathBuf::push` (also `Path::join`): pushing an absolute path
replaces the receiver; pushing a relative path appends its components. -/
def pathPush (p q : PathBuf) : PathBuf :=
  if pathIsAbsolute q then q else p ++ q

/-- One compiled glob component, as produced by `globset`'s compiler for
the pattern subset this program constructs. -/
inductive GComp where
| lit (s : String)
| star
| starstar
deriving DecidableEq, Repr

/-- A compiled glob pattern: the compiled form of each `/`-separated
component of the pattern string. -/
abbrev GlobPat := List GComp

/-- Errors surfaced by the Rust functions (`anyhow::Error` values by
provenance). -/
inductive RsError where
| readError (path : PathBuf)
| yamlError
| jsonError
| anyhowMsg (msg : String)
| globError (component : String)
deriving DecidableEq, Repr

/-- Glob metacharacters of `globset` that take a pattern component outside
the modelled subset (unless the component is exactly `*` or `**`). -/
def hasGlobMeta (c : String) : Bool :=
  c.toList.any fun ch => ch = '*' || ch = '?' || ch = '[' || ch = ']' || ch = Char.ofNat 123 || ch = Char.ofNat 125

/-- Whether a pattern component is in the modelled `globset` subset. -/
def compSupported (c : String) : Bool :=
  c = "**" || c = "*" || !hasGlobMeta c

/-- Compile one supported pattern component. -/
def compileComp (c : String) : GComp :=
  if c = "**" then .starstar else if c = "*" then .star else .lit c

/-- `Glob::new` on a pattern given by components: succeeds on the modelled
subset, producing the componentwise compilation. -/
def compileGlob (cs : PathBuf) : Except RsError GlobPat :=
  if cs.all compSupported then .ok (cs.map compileComp) else
    .error (.globError (String.join cs))

/-- `Glob::new` on a pattern string literal. -/
def globNew (s : String) : Except RsError GlobPat :=
  compileGlob (segsOf s)

/-- Component-level matcher equivalent to the regexes `globset` compiles
for the modelled subset (see the header comment): a literal component
consumes exactly itself; `*` consumes one or more components; `**`
consumes zero or more components, except that a trailing `**` (compiled
to `/.*`) consumes at least one. -/
def gmatch : GlobPat → List String → Bool
| [], segs => segs.isEmpty
| [.starstar], segs => !segs.isEmpty
| .starstar :: ps, segs => segs.tails.any fun t => gmatch ps t
| .star :: ps, segs => segs.tails.tail.any fun t => gmatch ps t
| .lit s :: ps, segs =>
  match segs with
  | [] => false
  | t :: ts => s = t && gmatch ps ts

/-- A compiled `GlobSet`: the list of its compiled patterns. -/
abbrev GlobSet := List GlobPat

/-- `GlobSet::is_match`: does any pattern of the set match the path? -/
def isMatch (gs : GlobSet) (p : PathBuf) : Bool :=
  gs.any fun pat => gmatch pat p

/-- The ambient environment of a call: the filesystem
(`fs::read_to_string`, `none` = I/O error) and the two serde
deserializers (third-party code), each returning the declared glob list
(already as `PathBuf`s, mirroring `Vec<PathBuf>`) or `none` on a
deserialization failure. -/
structure Env where
  fs : PathBuf → Option String
  parsePnpmYaml : String → Option (List PathBuf)
  parsePackageJson : String → Option (List PathBuf)

/-- The message of the `anyhow!` error raised for an empty workspace
declaration — the same string literal in both branches of the source. -/
def emptyWorkspacesMsg : String :=
  "pnpm-workspace.yaml: no packages found. Turborepo requires pnpm workspaces and thus packages to be defined in the root pnpm-workspace.yaml"

/-- `PackageManager::get_workspace_globs`. -/
def getWorkspaceGlobs (pm : PackageManager) (rootPath : PathBuf) (env : Env) :
    Except RsError (List PathBuf) :=
  match pm with
  | .pnpm | .pnpm6 =>
    match env.fs (pathPush rootPath ["pnpm-workspace.yaml"]) with
    | none => .error (.readError (pathPush rootPath ["pnpm-workspace.yaml"]))
    | some workspaceYaml =>
      match env.parsePnpmYaml workspaceYaml with
      | none => .error .yamlError
      | some packages =>
        if packages.isEmpty then .error (.anyhowMsg emptyWorkspacesMsg)
        else .ok packages
  | .berry | .npm | .yarn =>
    match env.fs (pathPush rootPath ["package.json"]) with
    | none => .error (.readError (pathPush rootPath ["package.json"]))
    | some packageJsonText =>
      match env.parsePackageJson packageJsonText with
      | none => .error .jsonError
      | some workspaces =>
        if workspaces.isEmpty then .error (.anyhowMsg emptyWorkspacesMsg)
        else .ok workspaces

/-- `PackageManager::get_workspace_ignores`.  The Yarn arm mirrors the
source exactly: `PathBuf::from(glob)` then `push("/node_modules/**")` —
and since the pushed path is absolute, the push replaces the base. -/
def getWorkspaceIgnores (pm : PackageManager) (rootPath : PathBuf) (env : Env) :
    Except RsError GlobSet :=
  match pm with
  | .berry =>
    ["**/node_modules", "**/.git", "**/.yarn"].mapM globNew
  | .npm =>
    ["**/node_modules/**"].mapM globNew
  | .pnpm | .pnpm6 =>
    ["**/node_modules/**", "**/bower_components/**"].mapM globNew
  | .yarn => do
    let globs ← getWorkspaceGlobs .yarn rootPath env
    (globs.map fun glob => pathPush glob (segsOf "/node_modules/**")).mapM compileGlob

/-- The positive patterns built in `get_workspaces`: for each workspace
glob, `path.push("package.json")` then `format!("{}/{}", root, path)`. -/
def workspacePatterns (rootPath : PathBuf) (workspacePaths : List PathBuf) :
    List PathBuf :=
  workspacePaths.map fun path => rootPath ++ pathPush path ["package.json"]

/-- Modelled from the spec: the Glob Walker (`crate::paths::GlobWalker`,
not part of the provided source) yields, in traversal order, the
filesystem entries under the root that match the positive glob set and do
not match the ignore set; each yielded element is a `Result` because an
individual filesystem operation can fail, and such error elements are
yielded as-is.  The traversal itself is modelled by the `entries`
argument: the candidate entries under the root in traversal order, each
either a path or an I/O error. -/
def globWalk (_rootPath : PathBuf) (positive ignore : GlobSet)
    (entries : List (Except RsError PathBuf)) : List (Except RsError PathBuf) :=
  entries.filter fun e =>
    match e with
    | .error _ => true
    | .ok p => isMatch positive p && !isMatch ignore p

/-- `PackageManager::get_workspaces`: globs, positive glob set, ignores,
walk, then `collect::<Result<Vec<_>>>` (first error aborts). -/
def getWorkspaces (pm : PackageManager) (rootPath : PathBuf) (env : Env)
    (entries : List (Except RsError PathBuf)) : Except RsError (List PathBuf) := do
  let workspacePaths ← getWorkspaceGlobs pm rootPath env
  let workspaceGlobs ← (workspacePatterns rootPath workspacePaths).mapM compileGlob
  let ignores ← getWorkspaceIgnores pm rootPath env
  (globWalk rootPath workspaceGlobs ignores entries).mapM id

/-- The declaration file's parsed content for a variant: the composition
of the file read and the variant's deserializer (used to state claims
about "file present and parses into the expected shape"). -/
def declParsed (pm : PackageManager) (rootPath : PathBuf) (env : Env) :
    Option (List PathBuf) :=
  match pm with
  | .pnpm | .pnpm6 =>
    (env.fs (pathPush rootPath ["pnpm-workspace.yaml"])).bind env.parsePnpmYaml
  | .berry | .npm | .yarn =>
    (env.fs (pathPush rootPath ["package.json"])).bind env.parsePackageJson

deriving instance DecidableEq for Except

/-! ### Helper lemmas about the glob matcher -/

lemma gmatch_nil_iff (segs : List String) : gmatch [] segs = true ↔ segs = [] := by
  cases segs <;> simp [gmatch]

lemma gmatch_lit_cons_iff (x : String) (ps : GlobPat) (segs : List String) :
    gmatch (.lit x :: ps) segs = true ↔
      ∃ ts, segs = x :: ts ∧ gmatch ps ts = true := by
  cases segs with
  | nil => simp [gmatch]
  | cons a ts =>
    simp only [gmatch, Bool.and_eq_true, decide_eq_true_eq, List.cons.injEq]
    constructor
    · rintro ⟨rfl, h⟩; exact ⟨ts, ⟨rfl, rfl⟩, h⟩
    · rintro ⟨ts', ⟨rfl, rfl⟩, h⟩; exact ⟨rfl, h⟩

lemma gmatch_lit_single_iff (x : String) (t : List String) :
    gmatch [.lit x] t = true ↔ t = [x] := by
  rw [gmatch_lit_cons_iff]
  constructor
  · rintro ⟨ts, rfl, h⟩; rw [gmatch_nil_iff] at h; rw [h]
  · rintro rfl; exact ⟨[], rfl, rfl⟩

lemma gmatch_trailing_starstar_iff (segs : List String) :
    gmatch [.starstar] segs = true ↔ segs ≠ [] := by
  cases segs <;> simp [gmatch]

lemma gmatch_starstar_cons_iff (c : GComp) (ps : GlobPat) (segs : List String) :
    gmatch (.starstar :: c :: ps) segs = true ↔
      ∃ t, t <:+ segs ∧ gmatch (c :: ps) t = true := by
  simp [gmatch, List.any_eq_true, List.mem_tails]

lemma gmatch_star_cons_iff (ps : GlobPat) (segs : List String) :
    gmatch (.star :: ps) segs = true ↔
      ∃ t, t ∈ segs.tails.tail ∧ gmatch ps t = true := by
  simp [gmatch, List.any_eq_true]

lemma mem_tails_tail_suffix {t segs : List String} (h : t ∈ segs.tails.tail) :
    t <:+ segs :=
  (List.mem_tails t segs).mp (List.mem_of_mem_tail h)

lemma getLast?_some_iff {α : Type} (l : List α) (a : α) :
    l.getLast? = some a ↔ ∃ t, l = t ++ [a] := by
  induction l with
  | nil => simp
  | cons b l ih =>
    cases l with
    | nil =>
      simp only [List.getLast?_singleton, Option.some.injEq]
      constructor
      · rintro rfl; exact ⟨[], rfl⟩
      · rintro ⟨t, ht⟩
        cases t with
        | nil => simpa using ht
        | cons c t => simp at ht
    | cons c l =>
      rw [List.getLast?_cons_cons, ih]
      constructor
      · rintro ⟨t, ht⟩; exact ⟨b :: t, by rw [List.cons_append, ht]⟩
      · rintro ⟨t, ht⟩
        cases t with
        | nil => simp at ht
        | cons d t =>
          rw [List.cons_append, List.cons.injEq] at ht
          exact ⟨t, ht.2⟩

lemma getLast?_of_suffix {t segs : List String} {s : String} (hsuf : t <:+ segs)
    (h : t.getLast? = some s) : segs.getLast? = some s := by
  obtain ⟨pre, rfl⟩ := hsuf
  have ht : t ≠ [] := by rintro rfl; simp at h
  rw [List.getLast?_append_of_ne_nil pre ht]
  exact h

/-- If a pattern ends in a literal component, any path it matches ends in
that component. -/
lemma gmatch_getLast (ps : GlobPat) (s : String) :
    ∀ segs, ps.getLast? = some (.lit s) → gmatch ps segs = true →
      segs.getLast? = some s := by
  induction ps with
  | nil => intro segs h; simp at h
  | cons c ps ih =>
    intro segs hlast hm
    cases c with
    | lit x =>
      rw [gmatch_lit_cons_iff] at hm
      obtain ⟨ts, rfl, hts⟩ := hm
      cases ps with
      | nil =>
        rw [gmatch_nil_iff] at hts
        subst hts
        simp only [List.getLast?_singleton, Option.some.injEq] at hlast ⊢
        cases hlast; rfl
      | cons d ps =>
        rw [List.getLast?_cons_cons] at hlast
        have := ih ts hlast hts
        have hts' : ts ≠ [] := by rintro rfl; simp at this
        rw [← this]
        exact List.getLast?_append_of_ne_nil [x] hts'
    | starstar =>
      cases ps with
      | nil => simp at hlast
      | cons d ps =>
        rw [gmatch_starstar_cons_iff] at hm
        obtain ⟨t, hsuf, ht⟩ := hm
        rw [List.getLast?_cons_cons] at hlast
        exact getLast?_of_suffix hsuf (ih t hlast ht)
    | star =>
      cases ps with
      | nil => simp at hlast
      | cons d ps =>
        rw [gmatch_star_cons_iff] at hm
        obtain ⟨t, hmem, ht⟩ := hm
        rw [List.getLast?_cons_cons] at hlast
        exact getLast?_of_suffix (mem_tails_tail_suffix hmem) (ih t hlast ht)

/-- If a pattern starts with a literal component, any path it matches
starts with that component. -/
lemma gmatch_head (x : String) (ps : GlobPat) (segs : List String)
    (h : gmatch (.lit x :: ps) segs = true) : segs.head? = some x := by
  rw [gmatch_lit_cons_iff] at h
  obtain ⟨ts, rfl, _⟩ := h
  rfl

/-! ### Helper lemmas about `List.mapM` over `Except` -/

lemma mapM_ok_mem {α β : Type} {ε : Type} (f : α → Except ε β) :
    ∀ (l : List α) (r : List β), l.mapM f = .ok r →
      ∀ b ∈ r, ∃ a ∈ l, f a = .ok b := by
  intro l
  induction l with
  | nil => intro r h b hb; simp only [List.mapM_nil, pure, Except.pure, Except.ok.injEq] at h; subst h; simp at hb
  | cons a l ih =>
    intro r h b hb
    rw [List.mapM_cons] at h
    cases hfa : f a with
    | error e => rw [hfa] at h; simp [bind, Except.bind] at h
    | ok b0 =>
      rw [hfa] at h
      cases hrest : l.mapM f with
      | error e => rw [hrest] at h; simp [bind, Except.bind] at h
      | ok r0 =>
        rw [hrest] at h
        simp only [bind, Except.bind, pure, Except.pure, Except.ok.injEq] at h
        subst h
        rcases List.mem_cons.mp hb with rfl | hb'
        · exact ⟨a, List.mem_cons_self a l, hfa⟩
        · obtain ⟨a', ha', hfa'⟩ := ih r0 hrest b hb'
          exact ⟨a', List.mem_cons_of_mem a ha', hfa'⟩

lemma mapM_id_all_ok {α ε : Type} :
    ∀ (l : List (Except ε α)) (r : List α), l.mapM id = .ok r →
      ∀ x ∈ l, ∃ a, x = .ok a := by
  intro l
  induction l with
  | nil => intro r _ x hx; simp at hx
  | cons y l ih =>
    intro r h x hx
    rw [List.mapM_cons] at h
    cases y with
    | error e => simp [bind, Except.bind, id] at h
    | ok a =>
      cases hrest : l.mapM id with
      | error e => rw [hrest] at h; simp [bind, Except.bind, id] at h
      | ok r0 =>
        rw [hrest] at h
        rcases List.mem_cons.mp hx with rfl | hx'
        · exact ⟨a, rfl⟩
        · exact ih r0 hrest x hx'

lemma mapM_id_first_error {α ε : Type} :
    ∀ (l₁ : List (Except ε α)) (e : ε) (l₂ : List (Except ε α)),
      (∀ x ∈ l₁, ∃ a, x = .ok a) →
      (l₁ ++ .error e :: l₂).mapM id = .error e := by
  intro l₁
  induction l₁ with
  | nil =>
    intro e l₂ _
    rw [List.nil_append, List.mapM_cons]
    simp [bind, Except.bind, id]
  | cons y l ih =>
    intro e l₂ hall
    obtain ⟨a, rfl⟩ := hall y (List.mem_cons_self y l)
    rw [List.cons_append, List.mapM_cons]
    rw [ih e l₂ fun x hx => hall x (List.mem_cons_of_mem _ hx)]
    simp [bind, Except.bind, id]

example : segsOf "/node_modules/**" = ["", "node_modules", "**"] := by decide
example : pathPush ["apps", "*"] (segsOf "/node_modules/**") = ["", "node_modules", "**"] := by decide
example : globNew "**/node_modules/**" = .ok [.starstar, .lit "node_modules", .starstar] := by decide
example : isMatch [[.starstar, .lit "node_modules", .starstar]] ["node_modules", "foo"] = true := by decide
example : isMatch [[.starstar, .lit "node_modules", .starstar]] ["a", "node_modules"] = false := by decide
example : isMatch [[.starstar, .lit "node_modules"]] ["a", "b", "node_modules"] = true := by decide
example : isMatch [[.starstar, .lit "node_modules"]] ["a", "b", "node_modules", "c"] = false := by decide

/-! ### Concrete environments for witnesses and counterexamples -/

/-- An environment whose filesystem has no readable files. -/
def envEmptyFs : Env where
  fs _ := none
  parsePnpmYaml _ := none
  parsePackageJson _ := none

/-- A concrete repository root, `/repo`. -/
def basicRoot : PathBuf := ["", "repo"]

/-- An environment mirroring the repository's `examples/basic` fixture:
`/repo/package.json` declares `workspaces: ["apps/*", "packages/*"]` and
`/repo/pnpm-workspace.yaml` declares `packages: ["pkgs/*"]`. -/
def envBasic : Env where
  fs p :=
    if p = ["", "repo", "package.json"] then some "basic-package-json"
    else if p = ["", "repo", "pnpm-workspace.yaml"] then some "basic-pnpm-yaml"
    else none
  parsePnpmYaml s :=
    if s = "basic-pnpm-yaml" then some [["pkgs", "*"]] else none
  parsePackageJson s :=
    if s = "basic-package-json" then some [["apps", "*"], ["packages", "*"]] else none

/-- An environment whose `/repo/package.json` declares `workspaces: []`
and whose `/repo/pnpm-workspace.yaml` declares `packages: []`. -/
def envEmptyWs : Env where
  fs p :=
    if p = ["", "repo", "package.json"] then some "empty-package-json"
    else if p = ["", "repo", "pnpm-workspace.yaml"] then some "empty-pnpm-yaml"
    else none
  parsePnpmYaml s :=
    if s = "empty-pnpm-yaml" then some [] else none
  parsePackageJson s :=
    if s = "empty-package-json" then some [] else none

/-! ### Claim C2 -/

/-- Claim C2: for every root path, `get_workspace_globs` selects the
declaration file by variant — Pnpm and Pnpm6 read
`<root>/pnpm-workspace.yaml` and return its `packages` array; Berry, Npm
and Yarn read `<root>/package.json` and return its `workspaces` array —
preserving the order declared in the file. -/
theorem c2_globs_by_variant (pm : PackageManager) (rootPath : PathBuf)
    (env : Env) (s : String) (pkgs : List PathBuf) :
    ((pm = .pnpm ∨ pm = .pnpm6) →
      env.fs (pathPush rootPath ["pnpm-workspace.yaml"]) = some s →
      env.parsePnpmYaml s = some pkgs → pkgs ≠ [] →
      getWorkspaceGlobs pm rootPath env = .ok pkgs) ∧
    ((pm = .berry ∨ pm = .npm ∨ pm = .yarn) →
      env.fs (pathPush rootPath ["package.json"]) = some s →
      env.parsePackageJson s = some pkgs → pkgs ≠ [] →
      getWorkspaceGlobs pm rootPath env = .ok pkgs) := by
  constructor
  · rintro (rfl | rfl) h1 h2 h3 <;>
      simp [getWorkspaceGlobs, h1, h2, List.isEmpty_iff, h3]
  · rintro (rfl | rfl | rfl) h1 h2 h3 <;>
      simp [getWorkspaceGlobs, h1, h2, List.isEmpty_iff, h3]

/-- Witness for C2 at a concrete input: Npm with the `examples/basic`
style environment returns the declared `workspaces` array in order, and
Pnpm returns the `packages` array of `pnpm-workspace.yaml`. -/
theorem c2_globs_by_variant_witness :
    getWorkspaceGlobs .npm basicRoot envBasic = .ok [["apps", "*"], ["packages", "*"]] ∧
    getWorkspaceGlobs .pnpm basicRoot envBasic = .ok [["pkgs", "*"]] :=
  ⟨(c2_globs_by_variant .npm basicRoot envBasic "basic-package-json"
      [["apps", "*"], ["packages", "*"]]).2
      (Or.inr (Or.inl rfl)) (by decide) (by decide) (by decide),
   (c2_globs_by_variant .pnpm basicRoot envBasic "basic-pnpm-yaml"
      [["pkgs", "*"]]).1 (Or.inl rfl) (by decide) (by decide) (by decide)⟩

/-! ### Claim C3 -/

/-- Claim C3: when the declaration file is present and parses into the
expected shape (`declParsed` yields `some l`), `get_workspace_globs`
returns the empty-workspace-declaration error iff the parsed glob list
has zero entries; every `Ok` result is the non-empty parsed list. -/
theorem c3_empty_iff (pm : PackageManager) (rootPath : PathBuf) (env : Env)
    (l : List PathBuf) (h : declParsed pm rootPath env = some l) :
    (getWorkspaceGlobs pm rootPath env = .error (.anyhowMsg emptyWorkspacesMsg) ↔ l = []) ∧
    (∀ r, getWorkspaceGlobs pm rootPath env = .ok r → r = l ∧ l ≠ []) ∧
    (l ≠ [] → getWorkspaceGlobs pm rootPath env = .ok l) := by
  cases pm <;>
  · simp only [declParsed] at h
    rcases Option.bind_eq_some.mp h with ⟨t, hf, hp⟩
    cases l with
    | nil => simp [getWorkspaceGlobs, hf, hp]
    | cons g gs => simp [getWorkspaceGlobs, hf, hp]

/-- Witness for C3 at concrete inputs: an environment with
`workspaces: []` yields the empty-declaration error (never an empty `Ok`
result), and the `examples/basic` environment yields the non-empty
declared list. -/
theorem c3_empty_iff_witness :
    getWorkspaceGlobs .npm basicRoot envEmptyWs = .error (.anyhowMsg emptyWorkspacesMsg) ∧
    getWorkspaceGlobs .npm basicRoot envBasic = .ok [["apps", "*"], ["packages", "*"]] :=
  ⟨(c3_empty_iff .npm basicRoot envEmptyWs [] (by decide)).1.mpr rfl,
   (c3_empty_iff .npm basicRoot envBasic [["apps", "*"], ["packages", "*"]]
      (by decide)).2.2 (by decide)⟩

/-! ### Claim C8 -/

/-- Claim C8: for a fixed variant and root path, two calls to
`get_workspace_globs` against filesystem states that agree on the two
configuration files (and with the same deserializers) return identical
results — the same glob sequence in the same order or the same error. -/
theorem c8_deterministic (pm : PackageManager) (rootPath : PathBuf)
    (env env' : Env)
    (hy : env.fs (pathPush rootPath ["pnpm-workspace.yaml"]) =
          env'.fs (pathPush rootPath ["pnpm-workspace.yaml"]))
    (hj : env.fs (pathPush rootPath ["package.json"]) =
          env'.fs (pathPush rootPath ["package.json"]))
    (hpy : env.parsePnpmYaml = env'.parsePnpmYaml)
    (hpj : env.parsePackageJson = env'.parsePackageJson) :
    getWorkspaceGlobs pm rootPath env = getWorkspaceGlobs pm rootPath env' := by
  cases pm <;> simp only [getWorkspaceGlobs, hy, hj, hpy, hpj]

/-- Witness for C8 at a concrete input: the `examples/basic` environment
compared with itself extended by an unrelated file. -/
theorem c8_deterministic_witness :
    getWorkspaceGlobs .yarn basicRoot envBasic =
      getWorkspaceGlobs .yarn basicRoot
        { envBasic with fs := fun p => if p = ["", "repo", "turbo.json"] then some "turbo" else envBasic.fs p } :=
  c8_deterministic .yarn basicRoot envBasic _ (by decide) (by decide) rfl rfl

/-! ### Claim C9 -/

set_option maxRecDepth 8000

/-- Claim C9: for the Berry, Npm and Yarn variants, when
`<root>/package.json` parses successfully but its `workspaces` array is
empty, the returned error carries the message naming
`pnpm-workspace.yaml` — it starts with that filename and never mentions
`package.json`, so the diagnostic context identifies the wrong file. -/
theorem c9_wrong_file_in_empty_error (pm : PackageManager) (rootPath : PathBuf)
    (env : Env) (s : String)
    (hpm : pm = .berry ∨ pm = .npm ∨ pm = .yarn)
    (hf : env.fs (pathPush rootPath ["package.json"]) = some s)
    (hp : env.parsePackageJson s = some []) :
    getWorkspaceGlobs pm rootPath env = .error (.anyhowMsg emptyWorkspacesMsg) ∧
    emptyWorkspacesMsg.toList.take 19 = "pnpm-workspace.yaml".toList ∧
    ¬ "package.json".toList <:+: emptyWorkspacesMsg.toList := by
  refine ⟨?_, by decide, by decide⟩
  rcases hpm with rfl | rfl | rfl <;> simp [getWorkspaceGlobs, hf, hp]

/-- Witness for C9 at a concrete input: Berry over an environment whose
`package.json` declares `workspaces: []`. -/
theorem c9_wrong_file_in_empty_error_witness :
    getWorkspaceGlobs .berry basicRoot envEmptyWs = .error (.anyhowMsg emptyWorkspacesMsg) :=
  (c9_wrong_file_in_empty_error .berry basicRoot envEmptyWs "empty-package-json"
    (Or.inl rfl) (by decide) (by decide)).1

/-! ### Claim C10 -/

/-- Claim C10: for every variant except Yarn, `get_workspace_ignores`
performs no filesystem access and its result does not depend on the root
path: for any two root paths and environments the calls return the same
fixed ignore set, and they always succeed. -/
theorem c10_ignores_fixed (pm : PackageManager) (hpm : pm ≠ .yarn)
    (rootPath : PathBuf) (env : Env) (rootPath' : PathBuf) (env' : Env) :
    getWorkspaceIgnores pm rootPath env = getWorkspaceIgnores pm rootPath' env' ∧
    ∃ gs, getWorkspaceIgnores pm rootPath env = .ok gs := by
  cases pm
  case yarn => exact absurd rfl hpm
  all_goals exact ⟨rfl, ⟨_, rfl⟩⟩

/-- Witness for C10 at concrete inputs: Npm with two unrelated roots and
environments, one of which cannot read any file. -/
theorem c10_ignores_fixed_witness :
    getWorkspaceIgnores .npm basicRoot envBasic =
      getWorkspaceIgnores .npm ["", "elsewhere"] envEmptyFs ∧
    ∃ gs, getWorkspaceIgnores .npm basicRoot envBasic = .ok gs :=
  c10_ignores_fixed .npm (by decide) basicRoot envBasic ["", "elsewhere"] envEmptyFs

/-! ### Claim C4 -/

/-- The compiled ignore set `get_workspace_ignores` builds for Npm. -/
def npmIgnoreSet : GlobSet :=
  [[.starstar, .lit "node_modules", .starstar]]

/-- The compiled ignore set `get_workspace_ignores` builds for Pnpm and
Pnpm6. -/
def pnpmIgnoreSet : GlobSet :=
  [[.starstar, .lit "node_modules", .starstar],
   [.starstar, .lit "bower_components", .starstar]]

lemma gmatch_mid_starstar (x : String) (pre post : List String)
    (hpost : post ≠ []) :
    gmatch [.starstar, .lit x, .starstar] (pre ++ x :: post) = true := by
  rw [gmatch_starstar_cons_iff]
  refine ⟨x :: post, List.suffix_append pre _, ?_⟩
  rw [gmatch_lit_cons_iff]
  exact ⟨post, rfl, (gmatch_trailing_starstar_iff post).mpr hpost⟩

/-- Counterexample to claim C4 as stated: the path `a/node_modules`
contains a `node_modules` path segment, yet it does not match the Npm
(nor the Pnpm) ignore set — `**/node_modules/**` requires at least one
further segment after `node_modules`. -/
theorem c4_counterexample :
    getWorkspaceIgnores .npm basicRoot envBasic = .ok npmIgnoreSet ∧
    getWorkspaceIgnores .pnpm basicRoot envBasic = .ok pnpmIgnoreSet ∧
    "node_modules" ∈ (["a", "node_modules"] : List String) ∧
    isMatch npmIgnoreSet ["a", "node_modules"] = false ∧
    isMatch pnpmIgnoreSet ["a", "node_modules"] = false := by
  refine ⟨rfl, rfl, by decide, by decide, by decide⟩

/-- Claim C4 (amended): for Npm, Pnpm and Pnpm6 the ignore set contains
`**/node_modules/**` (Pnpm/Pnpm6 additionally `**/bower_components/**`),
so any path containing a `node_modules` segment followed by at least one
further segment (e.g. `a/b/node_modules/c`) matches the ignore set; the
`node_modules` directory itself does not. -/
theorem c4_recursive_ignores (rootPath : PathBuf) (env : Env) :
    getWorkspaceIgnores .npm rootPath env = .ok npmIgnoreSet ∧
    getWorkspaceIgnores .pnpm rootPath env = .ok pnpmIgnoreSet ∧
    getWorkspaceIgnores .pnpm6 rootPath env = .ok pnpmIgnoreSet ∧
    globNew "**/node_modules/**" = .ok [.starstar, .lit "node_modules", .starstar] ∧
    globNew "**/bower_components/**" = .ok [.starstar, .lit "bower_components", .starstar] ∧
    [.starstar, .lit "node_modules", .starstar] ∈ npmIgnoreSet ∧
    [.starstar, .lit "node_modules", .starstar] ∈ pnpmIgnoreSet ∧
    [.starstar, .lit "bower_components", .starstar] ∈ pnpmIgnoreSet ∧
    ∀ pre post : List String, post ≠ [] →
      isMatch npmIgnoreSet (pre ++ "node_modules" :: post) = true ∧
      isMatch pnpmIgnoreSet (pre ++ "node_modules" :: post) = true := by
  refine ⟨rfl, rfl, rfl, rfl, rfl, by decide, by decide, by decide, ?_⟩
  intro pre post hpost
  constructor
  · simp only [isMatch, npmIgnoreSet, List.any_cons, List.any_nil,
      Bool.or_false, Bool.or_eq_true]
    exact gmatch_mid_starstar "node_modules" pre post hpost
  · simp only [isMatch, pnpmIgnoreSet, List.any_cons, List.any_nil,
      Bool.or_false, Bool.or_eq_true]
    exact Or.inl (gmatch_mid_starstar "node_modules" pre post hpost)

/-- Witness for the amended C4 at a concrete input: `a/b/node_modules/c`
matches both the Npm and the Pnpm ignore sets. -/
theorem c4_recursive_ignores_witness :
    isMatch npmIgnoreSet (["a", "b"] ++ "node_modules" :: ["c"]) = true ∧
    isMatch pnpmIgnoreSet (["a", "b"] ++ "node_modules" :: ["c"]) = true :=
  (c4_recursive_ignores basicRoot envBasic).2.2.2.2.2.2.2.2 ["a", "b"] ["c"]
    (by decide)

/-! ### Claim C5 -/

/-- The compiled ignore set `get_workspace_ignores` builds for Berry. -/
def berryIgnoreSet : GlobSet :=
  [[.starstar, .lit "node_modules"], [.starstar, .lit ".git"], [.starstar, .lit ".yarn"]]

lemma gmatch_starstar_lit_iff (x : String) (segs : List String) :
    gmatch [.starstar, .lit x] segs = true ↔ segs.getLast? = some x := by
  rw [gmatch_starstar_cons_iff]
  constructor
  · rintro ⟨t, hsuf, ht⟩
    rw [gmatch_lit_single_iff] at ht
    subst ht
    exact getLast?_of_suffix hsuf (by simp)
  · intro h
    obtain ⟨t, rfl⟩ := (getLast?_some_iff segs x).mp h
    exact ⟨[x], List.suffix_append t [x], (gmatch_lit_single_iff x [x]).mpr rfl⟩

/-- Claim C5: the Berry ignore set consists exactly of `**/node_modules`,
`**/.git` and `**/.yarn`, and it matches a path precisely when the final
path segment is one of those names — the directory itself, not its
descendants: `a/b/node_modules` matches while `a/b/node_modules/c` does
not. -/
theorem c5_berry_ignores (rootPath : PathBuf) (env : Env) :
    getWorkspaceIgnores .berry rootPath env = .ok berryIgnoreSet ∧
    globNew "**/node_modules" = .ok [.starstar, .lit "node_modules"] ∧
    globNew "**/.git" = .ok [.starstar, .lit ".git"] ∧
    globNew "**/.yarn" = .ok [.starstar, .lit ".yarn"] ∧
    (∀ segs : List String, isMatch berryIgnoreSet segs = true ↔
      (segs.getLast? = some "node_modules" ∨ segs.getLast? = some ".git" ∨
       segs.getLast? = some ".yarn")) ∧
    isMatch berryIgnoreSet ["a", "b", "node_modules"] = true ∧
    isMatch berryIgnoreSet ["a", "b", "node_modules", "c"] = false := by
  refine ⟨rfl, rfl, rfl, rfl, ?_, by decide, by decide⟩
  intro segs
  simp [isMatch, berryIgnoreSet, gmatch_starstar_lit_iff]

/-- Witness for C5 at a concrete input: `x/.yarn` matches the Berry
ignore set. -/
theorem c5_berry_ignores_witness :
    isMatch berryIgnoreSet ["x", ".yarn"] = true :=
  ((c5_berry_ignores basicRoot envBasic).2.2.2.2.1 ["x", ".yarn"]).mpr
    (Or.inr (Or.inr (by decide)))

/-! ### Claim C1 -/

/-- The ignore set the Yarn arm actually compiles for the declared
workspace globs `apps/*`, `packages/*`: because
`glob_path.push("/node_modules/**")` pushes an absolute path, the push
replaces the glob entirely, leaving `/node_modules/**` for every
declared glob. -/
def yarnActualIgnoreSet : GlobSet :=
  [[.lit "", .lit "node_modules", .starstar],
   [.lit "", .lit "node_modules", .starstar]]

/-- Claim C1, evaluated on the code: for Yarn with declared workspace
globs `apps/*` and `packages/*`, `PathBuf::push("/node_modules/**")`
replaces the base (the pushed path is absolute), so the ignore set the
code compiles is `/node_modules/**` for each glob — not the derived
pattern `G/node_modules/**` — and a `node_modules` directory nested
under a declared workspace glob, `apps/web/node_modules/lodash`, does
NOT match it, although the pattern `apps/*/node_modules/**` the claim
describes would match it. -/
theorem c1_yarn_ignores_code_eval :
    pathPush ["apps", "*"] (segsOf "/node_modules/**") = ["", "node_modules", "**"] ∧
    getWorkspaceGlobs .yarn basicRoot envBasic = .ok [["apps", "*"], ["packages", "*"]] ∧
    getWorkspaceIgnores .yarn basicRoot envBasic = .ok yarnActualIgnoreSet ∧
    isMatch yarnActualIgnoreSet ["apps", "web", "node_modules", "lodash"] = false ∧
    globNew "apps/*/node_modules/**" = .ok [.lit "apps", .star, .lit "node_modules", .starstar] ∧
    gmatch [.lit "apps", .star, .lit "node_modules", .starstar]
      ["apps", "web", "node_modules", "lodash"] = true := by
  refine ⟨rfl, rfl, rfl, by decide, rfl, by decide⟩

/-! ### Claims C6 and C7: the workspace resolver -/

lemma getWorkspaces_eq (pm : PackageManager) (rootPath : PathBuf) (env : Env)
    (entries : List (Except RsError PathBuf)) :
    getWorkspaces pm rootPath env entries =
      Except.bind (getWorkspaceGlobs pm rootPath env) fun workspacePaths =>
      Except.bind ((workspacePatterns rootPath workspacePaths).mapM compileGlob) fun workspaceGlobs =>
      Except.bind (getWorkspaceIgnores pm rootPath env) fun ignores =>
      (globWalk rootPath workspaceGlobs ignores entries).mapM id := rfl

lemma pathPush_package_json (path : PathBuf) :
    pathPush path ["package.json"] = path ++ ["package.json"] := by
  simp [pathPush, pathIsAbsolute]

/-- Claim C6: for every glob returned by the config parser, the positive
pattern list contains exactly the root-anchored pattern
`<root>/G/package.json`, and consequently every path in a successful
output of `get_workspaces` ends in the component `package.json` and is
absolute whenever the root is. -/
theorem c6_positive_patterns (pm : PackageManager) (rootPath : PathBuf)
    (env : Env) (entries : List (Except RsError PathBuf)) (globs : List PathBuf)
    (hg : getWorkspaceGlobs pm rootPath env = .ok globs) :
    workspacePatterns rootPath globs =
      globs.map (fun g => rootPath ++ (g ++ ["package.json"])) ∧
    (∀ g ∈ globs, rootPath ++ (g ++ ["package.json"]) ∈ workspacePatterns rootPath globs) ∧
    (∀ l, getWorkspaces pm rootPath env entries = .ok l →
      ∀ p ∈ l, p.getLast? = some "package.json" ∧
        (rootPath.head? = some "" → p.head? = some "")) := by
  have hwp : workspacePatterns rootPath globs =
      globs.map (fun g => rootPath ++ (g ++ ["package.json"])) := by
    simp [workspacePatterns, pathPush_package_json]
  refine ⟨hwp, ?_, ?_⟩
  · intro g hgm
    rw [hwp]
    exact List.mem_map_of_mem _ hgm
  · intro l hw p hp
    rw [getWorkspaces_eq, hg] at hw
    simp only [Except.bind] at hw
    cases h2 : (workspacePatterns rootPath globs).mapM compileGlob with
    | error e => rw [h2] at hw; simp at hw
    | ok pos =>
      rw [h2] at hw
      cases h3 : getWorkspaceIgnores pm rootPath env with
      | error e => rw [h3] at hw; simp at hw
      | ok ign =>
        rw [h3] at hw
        simp only at hw
        obtain ⟨a, ha, hap⟩ := mapM_ok_mem id _ l hw p hp
        rw [id_eq] at hap
        subst hap
        simp only [globWalk] at ha
        have hfilter := List.mem_filter.mp ha
        have hmatch : isMatch pos p = true := by
          have := hfilter.2
          simp only [Bool.and_eq_true] at this
          exact this.1
        simp only [isMatch, List.any_eq_true] at hmatch
        obtain ⟨pat, hpatmem, hgm⟩ := hmatch
        obtain ⟨cs, hcsmem, hcomp⟩ := mapM_ok_mem compileGlob _ pos h2 pat hpatmem
        rw [hwp] at hcsmem
        obtain ⟨g, hgmem, rfl⟩ := List.mem_map.mp hcsmem
        have hpat : pat = (rootPath ++ (g ++ ["package.json"])).map compileComp := by
          by_cases hsup : (rootPath ++ (g ++ ["package.json"])).all compSupported
          · simp only [compileGlob, hsup, if_true, Except.ok.injEq] at hcomp
            exact hcomp.symm
          · simp [compileGlob, hsup] at hcomp
        constructor
        · have hpat_last : pat.getLast? = some (.lit "package.json") := by
            rw [hpat, ← List.append_assoc, List.map_append]
            refine (getLast?_some_iff _ _).mpr ⟨(rootPath ++ g).map compileComp, ?_⟩
            have : compileComp "package.json" = .lit "package.json" := by decide
            simp [this]
          exact gmatch_getLast pat "package.json" p hpat_last hgm
        · intro hroot
          cases rootPath with
          | nil => simp at hroot
          | cons r0 rt =>
            simp only [List.head?_cons, Option.some.injEq] at hroot
            subst hroot
            rw [hpat] at hgm
            simp only [List.cons_append, List.map_cons] at hgm
            have hcc : compileComp "" = .lit "" := by decide
            rw [hcc] at hgm
            exact gmatch_head "" _ p hgm

/-- Witness for C6 at a concrete input: resolving Npm workspaces over the
`examples/basic` environment with two candidate entries returns only the
manifest path, which ends in `package.json` and is absolute. -/
theorem c6_positive_patterns_witness :
    (["", "repo", "apps", "a", "package.json"] : PathBuf).getLast? = some "package.json" ∧
    ((["", "repo"] : PathBuf).head? = some "" →
      (["", "repo", "apps", "a", "package.json"] : PathBuf).head? = some "") :=
  (c6_positive_patterns .npm basicRoot envBasic
      [.ok ["", "repo", "apps", "a", "package.json"], .ok ["", "repo", "x.js"]]
      [["apps", "*"], ["packages", "*"]] (by decide)).2.2
    [["", "repo", "apps", "a", "package.json"]] (by decide)
    ["", "repo", "apps", "a", "package.json"] (by decide)

/-- Claim C7: `get_workspaces` is all-or-nothing — an error from
obtaining the globs, compiling the positive glob set, or building the
ignore set aborts resolution with that error; an error yielded during
the walk makes the whole call return the first such error; and a
successful result implies every step and every walked entry succeeded. -/
theorem c7_all_or_nothing (pm : PackageManager) (rootPath : PathBuf)
    (env : Env) (entries : List (Except RsError PathBuf)) :
    (∀ e, getWorkspaceGlobs pm rootPath env = .error e →
      getWorkspaces pm rootPath env entries = .error e) ∧
    (∀ globs e, getWorkspaceGlobs pm rootPath env = .ok globs →
      (workspacePatterns rootPath globs).mapM compileGlob = .error e →
      getWorkspaces pm rootPath env entries = .error e) ∧
    (∀ globs pos e, getWorkspaceGlobs pm rootPath env = .ok globs →
      (workspacePatterns rootPath globs).mapM compileGlob = .ok pos →
      getWorkspaceIgnores pm rootPath env = .error e →
      getWorkspaces pm rootPath env entries = .error e) ∧
    (∀ globs pos ign l₁ e l₂, getWorkspaceGlobs pm rootPath env = .ok globs →
      (workspacePatterns rootPath globs).mapM compileGlob = .ok pos →
      getWorkspaceIgnores pm rootPath env = .ok ign →
      globWalk rootPath pos ign entries = l₁ ++ .error e :: l₂ →
      (∀ x ∈ l₁, ∃ a, x = .ok a) →
      getWorkspaces pm rootPath env entries = .error e) ∧
    (∀ l, getWorkspaces pm rootPath env entries = .ok l →
      ∃ globs pos ign, getWorkspaceGlobs pm rootPath env = .ok globs ∧
        (workspacePatterns rootPath globs).mapM compileGlob = .ok pos ∧
        getWorkspaceIgnores pm rootPath env = .ok ign ∧
        (∀ x ∈ globWalk rootPath pos ign entries, ∃ a, x = .ok a) ∧
        (globWalk rootPath pos ign entries).mapM id = .ok l) := by
  refine ⟨?_, ?_, ?_, ?_, ?_⟩
  · intro e h1
    rw [getWorkspaces_eq, h1]
    rfl
  · intro globs e h1 h2
    rw [getWorkspaces_eq, h1]
    simp only [Except.bind]
    rw [h2]
  · intro globs pos e h1 h2 h3
    rw [getWorkspaces_eq, h1]
    simp only [Except.bind]
    rw [h2]
    simp only [Except.bind]
    rw [h3]
  · intro globs pos ign l₁ e l₂ h1 h2 h3 hwalk hall
    rw [getWorkspaces_eq, h1]
    simp only [Except.bind]
    rw [h2]
    simp only [Except.bind]
    rw [h3]
    simp only [Except.bind]
    rw [hwalk]
    exact mapM_id_first_error l₁ e l₂ hall
  · intro l hw
    rw [getWorkspaces_eq] at hw
    cases h1 : getWorkspaceGlobs pm rootPath env with
    | error e => rw [h1] at hw; simp [Except.bind] at hw
    | ok globs =>
      rw [h1] at hw
      simp only [Except.bind] at hw
      cases h2 : (workspacePatterns rootPath globs).mapM compileGlob with
      | error e => rw [h2] at hw; simp at hw
      | ok pos =>
        rw [h2] at hw
        cases h3 : getWorkspaceIgnores pm rootPath env with
        | error e => rw [h3] at hw; simp at hw
        | ok ign =>
          rw [h3] at hw
          simp only at hw
          exact ⟨globs, pos, ign, rfl, h2, rfl, mapM_id_all_ok _ l hw, hw⟩

/-- Witness for C7 at concrete inputs: an unreadable `package.json`
aborts resolution with the read error and no partial result, and a
single I/O error among the walked entries aborts it with that error. -/
theorem c7_all_or_nothing_witness :
    getWorkspaces .npm basicRoot envEmptyFs [] =
      .error (.readError ["", "repo", "package.json"]) ∧
    getWorkspaces .npm basicRoot envBasic [.error .yamlError] =
      .error .yamlError :=
  ⟨(c7_all_or_nothing .npm basicRoot envEmptyFs []).1
      (.readError ["", "repo", "package.json"]) (by decide),
   (c7_all_or_nothing .npm basicRoot envBasic [.error .yamlError]).2.2.2.1
      [["apps", "*"], ["packages", "*"]]
      [[.lit "", .lit "repo", .lit "apps", .star, .lit "package.json"],
       [.lit "", .lit "repo", .lit "packages", .star, .lit "package.json"]]
      [[.starstar, .lit "node_modules", .starstar]]
      [] .yamlError []
      (by decide) (by decide) (by decide) (by decide) (by intro x hx; simp at hx)⟩
